import Mathlib

/-!
Verification of the gemara-mcp fetch/cache/retry pipeline.

This file gives a shallow embedding, in Lean 4, of the core components of the
repository: the version validator and URL builder
(internal/tool/fetcher, `URLBuilder.Build` / `ValidateVersion`), the retrying
HTTP transport (internal/tool/fetcher/http.go, `retryTransport.RoundTrip` /
`isRetryable`), the bounded HTTP fetcher and cached fetcher
(`HTTPFetcher` / `CachedFetcher`), the TTL cache (modelled from the spec, the
`fetcher.Cache` implementation is not among the provided sources), and the
tool-mode version defaulting (internal/tool/mode.go).

Go conventions mapped to Lean: byte slices become `List UInt8`, Go `error`
results become `Option String` (none = nil error) or `Except String`,
`time.Time` / `time.Duration` become `Nat` instants and abstract units, and
the non-deterministic environment of a network round trip (the underlying
transport outcomes and the cancellation race) is passed in explicitly.
-/

namespace GemaraMCP

/-! ## Version validator (fetcher url.go, `ValidateVersion`)

The Go source compiles the anchored regular expression
`^(v\d+\.\d+\.\d+(-[\w.]+)?|latest)$` and accepts exactly the strings it
matches.  The character classes are ASCII-only in Go's RE2 (`\d` is [0-9],
`\w` is [0-9A-Za-z_]).  Because each quantified class is disjoint from the
character that must follow it (digits vs '.', digits vs '-'), the regex is
equivalent to the deterministic longest-munch parser written out below. -/

/-- Go RE2 word character class: [0-9A-Za-z_] (ASCII only). -/
def isWordChar (c : Char) : Bool := c.isAlphanum || c = '_'

/-- Character class [\w.] used by the pre-release tag. -/
def isWordOrDot (c : Char) : Bool := isWordChar c || c = '.'

/-- The regex fragment after the patch digits: end of string, or a hyphen
followed by a non-empty run of word characters and dots. -/
def matchTail : List Char → Bool
  | [] => true
  | c :: p => c == '-' && !p.isEmpty && p.all isWordOrDot

/-- The fragment starting at the patch component. -/
def matchPatch (s : List Char) : Bool :=
  !(s.takeWhile Char.isDigit).isEmpty && matchTail (s.dropWhile Char.isDigit)

/-- The fragment starting at the minor component. -/
def matchMinor (s : List Char) : Bool :=
  !(s.takeWhile Char.isDigit).isEmpty &&
    (match s.dropWhile Char.isDigit with
     | c :: r => c == '.' && matchPatch r
     | [] => false)

/-- The fragment starting at the major component, after the leading v. -/
def matchMajor (s : List Char) : Bool :=
  !(s.takeWhile Char.isDigit).isEmpty &&
    (match s.dropWhile Char.isDigit with
     | c :: r => c == '.' && matchMinor r
     | [] => false)

/-- Embedding of validVersionPattern.MatchString: the anchored regex
accepts either the literal latest or a v-prefixed semver with optional
pre-release tag. -/
def matchesVersionPattern (s : List Char) : Bool :=
  decide (s = "latest".data) ||
    (match s with
     | c :: rest => c == 'v' && matchMajor rest
     | [] => false)

/-- Embedding of ValidateVersion: nil error iff the pattern matches,
otherwise a descriptive error. -/
def ValidateVersion (version : String) : Option String :=
  if matchesVersionPattern version.data then none
  else some ("invalid version " ++ version ++ ": must be semver (e.g., v1.2.3) or latest")

/-- Declarative reading of the pre-release fragment of the spec pattern. -/
def PreReleaseTail (tail : List Char) : Prop :=
  tail = [] ∨ ∃ p, tail = '-' :: p ∧ p ≠ [] ∧ ∀ c ∈ p, isWordOrDot c = true

/-- Declarative reading of the spec sentence: the string is the exact
literal latest, or v followed by three non-empty digit runs separated by
dots, optionally followed by a hyphenated non-empty run of word characters
and dots.  This is the denotation of the spec regex, written as an
existential decomposition rather than as a matcher. -/
def SpecVersionOK (s : String) : Prop :=
  s = "latest" ∨
    ∃ d1 d2 d3 tail,
      s.data = 'v' :: (d1 ++ '.' :: (d2 ++ '.' :: (d3 ++ tail))) ∧
      d1 ≠ [] ∧ d2 ≠ [] ∧ d3 ≠ [] ∧
      (∀ c ∈ d1, c.isDigit = true) ∧ (∀ c ∈ d2, c.isDigit = true) ∧
      (∀ c ∈ d3, c.isDigit = true) ∧ PreReleaseTail tail

theorem isEmpty_false_iff {α : Type} (l : List α) : l.isEmpty = false ↔ l ≠ [] := by
  cases l <;> simp

theorem takeWhile_append_all {α : Type} (p : α → Bool) (xs ys : List α)
    (hxs : ∀ x ∈ xs, p x = true)
    (hys : ys = [] ∨ ∃ y l, ys = y :: l ∧ p y = false) :
    (xs ++ ys).takeWhile p = xs ∧ (xs ++ ys).dropWhile p = ys := by
  induction xs with
  | nil =>
    simp only [List.nil_append]
    rcases hys with rfl | ⟨y, l, rfl, hy⟩
    · simp
    · simp [List.takeWhile_cons, List.dropWhile_cons, hy]
  | cons x xs ih =>
    have hx : p x = true := hxs x (by simp)
    have ih' := ih (fun a ha => hxs a (by simp [ha]))
    simp [List.cons_append, List.takeWhile_cons, List.dropWhile_cons, hx, ih'.1, ih'.2]

theorem mem_takeWhile_pred {α : Type} (p : α → Bool) (l : List α) :
    ∀ x ∈ l.takeWhile p, p x = true := by
  induction l with
  | nil => simp
  | cons a l ih =>
    intro x hx
    rw [List.takeWhile_cons] at hx
    by_cases ha : p a = true
    · rw [if_pos ha] at hx
      rcases List.mem_cons.mp hx with rfl | hx
      · exact ha
      · exact ih x hx
    · rw [if_neg ha] at hx
      simp at hx

theorem matchTail_iff (t : List Char) : matchTail t = true ↔ PreReleaseTail t := by
  cases t with
  | nil => simp [matchTail, PreReleaseTail]
  | cons c p =>
    simp only [matchTail, PreReleaseTail, Bool.and_eq_true, beq_iff_eq,
      Bool.not_eq_true', isEmpty_false_iff, List.all_eq_true]
    constructor
    · rintro ⟨⟨rfl, hp⟩, hall⟩
      exact Or.inr ⟨p, rfl, hp, hall⟩
    · rintro (h | ⟨q, hq, hne, hall⟩)
      · exact absurd h (by simp)
      · injection hq with h1 h2
        subst h1; subst h2
        exact ⟨⟨rfl, hne⟩, hall⟩

theorem matchPatch_iff (s : List Char) :
    matchPatch s = true ↔
      ∃ d tail, s = d ++ tail ∧ d ≠ [] ∧ (∀ c ∈ d, c.isDigit = true) ∧
        PreReleaseTail tail := by
  constructor
  · intro h
    simp only [matchPatch, Bool.and_eq_true, Bool.not_eq_true',
      isEmpty_false_iff] at h
    refine ⟨s.takeWhile Char.isDigit, s.dropWhile Char.isDigit,
      (List.takeWhile_append_dropWhile Char.isDigit s).symm, h.1,
      mem_takeWhile_pred Char.isDigit s, (matchTail_iff _).mp h.2⟩
  · rintro ⟨d, tail, rfl, hne, hdig, htail⟩
    have hys : tail = [] ∨ ∃ y l, tail = y :: l ∧ Char.isDigit y = false := by
      rcases htail with rfl | ⟨p, rfl, _, _⟩
      · exact Or.inl rfl
      · exact Or.inr ⟨'-', p, rfl, by decide⟩
    have hsplit := takeWhile_append_all Char.isDigit d tail hdig hys
    simp only [matchPatch, hsplit.1, hsplit.2, Bool.and_eq_true,
      Bool.not_eq_true', isEmpty_false_iff]
    exact ⟨hne, (matchTail_iff _).mpr htail⟩

theorem matchMinor_iff (s : List Char) :
    matchMinor s = true ↔
      ∃ d2 d3 tail, s = d2 ++ '.' :: (d3 ++ tail) ∧ d2 ≠ [] ∧ d3 ≠ [] ∧
        (∀ c ∈ d2, c.isDigit = true) ∧ (∀ c ∈ d3, c.isDigit = true) ∧
        PreReleaseTail tail := by
  constructor
  · intro h
    simp only [matchMinor, Bool.and_eq_true, Bool.not_eq_true',
      isEmpty_false_iff] at h
    obtain ⟨h1, h2⟩ := h
    rcases hd : s.dropWhile Char.isDigit with _ | ⟨c, r⟩
    · rw [hd] at h2; simp at h2
    · rw [hd] at h2
      simp only [Bool.and_eq_true, beq_iff_eq] at h2
      obtain ⟨rfl, hr⟩ := h2
      obtain ⟨d3, tail, rfl, hne3, hdig3, htail⟩ := (matchPatch_iff r).mp hr
      refine ⟨s.takeWhile Char.isDigit, d3, tail, ?_, h1,
        hne3, mem_takeWhile_pred Char.isDigit s, hdig3, htail⟩
      conv_lhs => rw [(List.takeWhile_append_dropWhile Char.isDigit s).symm]
      rw [hd]
  · rintro ⟨d2, d3, tail, rfl, hne2, hne3, hdig2, hdig3, htail⟩
    have hsplit := takeWhile_append_all Char.isDigit d2 ('.' :: (d3 ++ tail)) hdig2
      (Or.inr ⟨'.', d3 ++ tail, rfl, by decide⟩)
    simp only [matchMinor, hsplit.1, hsplit.2, Bool.and_eq_true,
      Bool.not_eq_true', isEmpty_false_iff, beq_self_eq_true, true_and]
    exact ⟨hne2, (matchPatch_iff _).mpr ⟨d3, tail, rfl, hne3, hdig3, htail⟩⟩

theorem matchMajor_iff (s : List Char) :
    matchMajor s = true ↔
      ∃ d1 d2 d3 tail, s = d1 ++ '.' :: (d2 ++ '.' :: (d3 ++ tail)) ∧
        d1 ≠ [] ∧ d2 ≠ [] ∧ d3 ≠ [] ∧
        (∀ c ∈ d1, c.isDigit = true) ∧ (∀ c ∈ d2, c.isDigit = true) ∧
        (∀ c ∈ d3, c.isDigit = true) ∧ PreReleaseTail tail := by
  constructor
  · intro h
    simp only [matchMajor, Bool.and_eq_true, Bool.not_eq_true',
      isEmpty_false_iff] at h
    obtain ⟨h1, h2⟩ := h
    rcases hd : s.dropWhile Char.isDigit with _ | ⟨c, r⟩
    · rw [hd] at h2; simp at h2
    · rw [hd] at h2
      simp only [Bool.and_eq_true, beq_iff_eq] at h2
      obtain ⟨rfl, hr⟩ := h2
      obtain ⟨d2, d3, tail, rfl, hne2, hne3, hdig2, hdig3, htail⟩ :=
        (matchMinor_iff r).mp hr
      refine ⟨s.takeWhile Char.isDigit, d2, d3, tail, ?_, h1, hne2, hne3,
        mem_takeWhile_pred Char.isDigit s, hdig2, hdig3, htail⟩
      conv_lhs => rw [(List.takeWhile_append_dropWhile Char.isDigit s).symm]
      rw [hd]
  · rintro ⟨d1, d2, d3, tail, rfl, hne1, hne2, hne3, hdig1, hdig2, hdig3, htail⟩
    have hsplit := takeWhile_append_all Char.isDigit d1
      ('.' :: (d2 ++ '.' :: (d3 ++ tail))) hdig1
      (Or.inr ⟨'.', d2 ++ '.' :: (d3 ++ tail), rfl, by decide⟩)
    simp only [matchMajor, hsplit.1, hsplit.2, Bool.and_eq_true,
      Bool.not_eq_true', isEmpty_false_iff, beq_self_eq_true, true_and]
    exact ⟨hne1, (matchMinor_iff _).mpr ⟨d2, d3, tail, rfl, hne2, hne3, hdig2, hdig3, htail⟩⟩

theorem string_eq_of_data_eq {s t : String} (h : s.data = t.data) : s = t := by
  cases s; cases t; exact congrArg String.mk h

theorem validateVersion_none_iff (s : String) :
    ValidateVersion s = none ↔ SpecVersionOK s := by
  have hmatch : ValidateVersion s = none ↔ matchesVersionPattern s.data = true := by
    unfold ValidateVersion
    split <;> simp_all
  rw [hmatch]
  unfold matchesVersionPattern
  constructor
  · intro h
    simp only [Bool.or_eq_true, decide_eq_true_eq] at h
    rcases h with h | h
    · exact Or.inl (string_eq_of_data_eq h)
    · rcases hd : s.data with _ | ⟨c, rest⟩
      · rw [hd] at h; simp at h
      · rw [hd] at h
        simp only [Bool.and_eq_true, beq_iff_eq] at h
        obtain ⟨rfl, hm⟩ := h
        obtain ⟨d1, d2, d3, tail, hrest, hne1, hne2, hne3, hd1, hd2, hd3, ht⟩ :=
          (matchMajor_iff rest).mp hm
        exact Or.inr ⟨d1, d2, d3, tail, by rw [hd, hrest], hne1, hne2, hne3, hd1, hd2, hd3, ht⟩
  · intro h
    simp only [Bool.or_eq_true, decide_eq_true_eq]
    rcases h with rfl | ⟨d1, d2, d3, tail, hdata, hne1, hne2, hne3, hd1, hd2, hd3, ht⟩
    · exact Or.inl rfl
    · right
      rw [hdata]
      simp only [Bool.and_eq_true, beq_self_eq_true, true_and]
      exact (matchMajor_iff _).mpr ⟨d1, d2, d3, tail, rfl, hne1, hne2, hne3, hd1, hd2, hd3, ht⟩

theorem specVersionOK_chars {s : String} (h : SpecVersionOK s) :
    ∀ c ∈ s.data, c.isAlphanum = true ∨ c = '.' ∨ c = '-' ∨ c = '_' := by
  intro c hc
  rcases h with rfl | ⟨d1, d2, d3, tail, hdata, _, _, _, hd1, hd2, hd3, ht⟩
  · have : c ∈ ['l', 'a', 't', 'e', 's', 't'] := hc
    simp only [List.mem_cons, List.not_mem_nil, or_false] at this
    rcases this with rfl | rfl | rfl | rfl | rfl | rfl <;> exact Or.inl (by decide)
  · rw [hdata] at hc
    have hdig : ∀ d : Char, d.isDigit = true → d.isAlphanum = true := by
      intro d hd
      simp [Char.isAlphanum, hd]
    simp only [List.mem_cons, List.mem_append] at hc
    rcases hc with rfl | hc
    · exact Or.inl (by decide)
    rcases hc with hc | hc
    · exact Or.inl (hdig c (hd1 c hc))
    rcases hc with rfl | hc
    · exact Or.inr (Or.inl rfl)
    rcases hc with hc | hc
    · exact Or.inl (hdig c (hd2 c hc))
    rcases hc with rfl | hc
    · exact Or.inr (Or.inl rfl)
    rcases hc with hc | hc
    · exact Or.inl (hdig c (hd3 c hc))
    rcases ht with rfl | ⟨p, rfl, _, hp⟩
    · simp at hc
    · simp only [List.mem_cons] at hc
      rcases hc with rfl | hc
      · exact Or.inr (Or.inr (Or.inl rfl))
      · have := hp c hc
        simp only [isWordOrDot, isWordChar, Bool.or_eq_true, decide_eq_true_eq] at this
        rcases this with (h1 | h1) | h1
        · exact Or.inl h1
        · exact Or.inr (Or.inr (Or.inr h1))
        · exact Or.inr (Or.inl h1)

/-- Claim C2: ValidateVersion accepts exactly the strings matching
v digits . digits . digits with an optional hyphenated word-and-dot
pre-release tag, plus the exact literal latest; every other string,
including the empty string, strings missing the v prefix, and strings
containing a slash, question mark, hash, space, or NUL byte, gets an
error. -/
theorem c2_validateVersion_accepts_exactly_pattern :
    (∀ s : String, ValidateVersion s = none ↔ SpecVersionOK s) ∧
    (∀ s : String,
      (∃ c ∈ s.data, c = '/' ∨ c = '?' ∨ c = '#' ∨ c = ' ' ∨ c = '\x00') →
      ValidateVersion s ≠ none) ∧
    ValidateVersion "" ≠ none ∧
    ValidateVersion "1.2.3" ≠ none ∧
    ValidateVersion "v1.2.3" = none ∧
    ValidateVersion "v1.0.0-rc.1" = none ∧
    ValidateVersion "latest" = none := by
  refine ⟨validateVersion_none_iff, ?_, by decide, by decide, by decide, by decide, by decide⟩
  rintro s ⟨c, hc, hbad⟩ hnone
  have hok := (validateVersion_none_iff s).mp hnone
  have hchar := specVersionOK_chars hok c hc
  rcases hbad with rfl | rfl | rfl | rfl | rfl <;>
    rcases hchar with h | h | h | h <;> simp_all

/-- Closed instance of C2: a version carrying a query separator is rejected. -/
theorem c2_witness : ValidateVersion "v1.0.0?q=x" ≠ none :=
  c2_validateVersion_accepts_exactly_pattern.2.1 "v1.0.0?q=x"
    ⟨'?', by decide, by decide⟩

/-! ## URL builder (fetcher url.go, `NewURLBuilder` / `URLBuilder.Build`)

The builder calls the Go net/url package.  Only the scheme and host of a
parsed URL are ever inspected by this code, so a parsed URL is modelled as
scheme, host, and an opaque remainder, and the library functions used
(`url.Parse` and `URL.String`) are passed in as an explicit parameter: the
theorems below hold for every behaviour of the URL library, which is
exactly the guarantee the origin check is there to provide. -/

structure GoURL where
  scheme : String
  host : String
  rest : String
  deriving DecidableEq

/-- The two net/url operations URLBuilder uses: Parse (fallible) and
URL.String (rendering). -/
structure URLLib where
  parse : String → Option GoURL
  render : GoURL → String

structure URLBuilder where
  base : GoURL
  suffix : String

/-- Embedding of NewURLBuilder: parse the base, insist on the https scheme
and a non-empty host. -/
def NewURLBuilder (lib : URLLib) (baseURL suffix : String) : Except String URLBuilder :=
  match lib.parse baseURL with
  | none => Except.error "invalid base URL"
  | some u =>
    if u.scheme ≠ "https" then
      Except.error ("base URL must use HTTPS, got scheme " ++ u.scheme)
    else if u.host = "" then Except.error "base URL must have a host"
    else Except.ok { base := u, suffix := suffix }

/-- The unexpected-origin error message, naming actual and expected
scheme and host as in the Go format string. -/
def unexpectedOriginMsg (result base : GoURL) : String :=
  "constructed URL has unexpected origin: got " ++ result.scheme ++ "://" ++
    result.host ++ ", want " ++ base.scheme ++ "://" ++ base.host

/-- Embedding of URLBuilder.Build: validate the version, concatenate
base-string + version + suffix, reparse, and reject any origin divergence
before returning the rendered result. -/
def URLBuilder.Build (lib : URLLib) (b : URLBuilder) (version : String) :
    Except String String :=
  match ValidateVersion version with
  | some e => Except.error e
  | none =>
    match lib.parse (lib.render b.base ++ version ++ b.suffix) with
    | none => Except.error "constructed invalid URL"
    | some result =>
      if result.scheme ≠ b.base.scheme ∨ result.host ≠ b.base.host then
        Except.error (unexpectedOriginMsg result b.base)
      else Except.ok (lib.render result)

/-- Claim C1: for every version the validator accepts, Build either fails
or returns a URL whose parsed scheme and host equal the trusted base's;
whenever the parsed concatenation's scheme or host differs from the base's,
Build returns the unexpected-origin error naming actual and expected
origin.  Build is a pure function: no network call occurs in it, so the
rejection precedes any network access (the fetch URL only exists if Build
returned ok).  The regression version, an absolute URL, is already
rejected by validation. -/
theorem c1_build_origin_pinned (lib : URLLib) (b : URLBuilder) (version : String)
    (hv : ValidateVersion version = none) :
    (∀ out, URLBuilder.Build lib b version = Except.ok out →
      ∃ u, lib.parse (lib.render b.base ++ version ++ b.suffix) = some u ∧
        u.scheme = b.base.scheme ∧ u.host = b.base.host ∧ out = lib.render u) ∧
    (∀ u, lib.parse (lib.render b.base ++ version ++ b.suffix) = some u →
      u.scheme ≠ b.base.scheme ∨ u.host ≠ b.base.host →
      URLBuilder.Build lib b version = Except.error (unexpectedOriginMsg u b.base)) ∧
    ValidateVersion "https://evil.example/x" ≠ none := by
  refine ⟨?_, ?_, by decide⟩
  · intro out hok
    rcases hp : lib.parse (lib.render b.base ++ version ++ b.suffix) with _ | u
    · simp [URLBuilder.Build, hv, hp] at hok
    · by_cases hmis : u.scheme ≠ b.base.scheme ∨ u.host ≠ b.base.host
      · simp [URLBuilder.Build, hv, hp, hmis] at hok
      · push_neg at hmis
        refine ⟨u, hp ▸ rfl, hmis.1, hmis.2, ?_⟩
        simp [URLBuilder.Build, hv, hp, hmis.1, hmis.2] at hok
        exact hok.symm
  · intro u hp hmis
    simp [URLBuilder.Build, hv, hp, hmis]

/-- A concrete URL library and builder used to instantiate the claim
theorems on closed inputs. -/
def tLib : URLLib :=
  { parse := fun s => some { scheme := "https", host := "example.com", rest := s },
    render := fun u => u.rest }

def tBuilder : URLBuilder :=
  { base := { scheme := "https", host := "example.com", rest := "https://example.com/a/" },
    suffix := "/b.yaml" }

/-- Closed instance of C1 at version v1.2.3. -/
theorem c1_witness :
    (∀ out, URLBuilder.Build tLib tBuilder "v1.2.3" = Except.ok out →
      ∃ u, tLib.parse (tLib.render tBuilder.base ++ "v1.2.3" ++ tBuilder.suffix) = some u ∧
        u.scheme = tBuilder.base.scheme ∧ u.host = tBuilder.base.host ∧
        out = tLib.render u) ∧
    (∀ u, tLib.parse (tLib.render tBuilder.base ++ "v1.2.3" ++ tBuilder.suffix) = some u →
      u.scheme ≠ tBuilder.base.scheme ∨ u.host ≠ tBuilder.base.host →
      URLBuilder.Build tLib tBuilder "v1.2.3" =
        Except.error (unexpectedOriginMsg u tBuilder.base)) ∧
    ValidateVersion "https://evil.example/x" ≠ none :=
  c1_build_origin_pinned tLib tBuilder "v1.2.3" (by decide)

/-! ## Retrying transport (fetcher http.go, `isRetryable` / `retryTransport.RoundTrip`)

The underlying `http.DefaultTransport.RoundTrip` is the environment: the
i-th call to it is modelled by `Env.transport i`, yielding a Go
(response, error) pair where exactly one side is meaningful.  The sleep
between attempts races a timer against the request context;
`Env.cancelledDuringWait i` records which side of that race wins during
the wait that follows attempt i.  Durations (the fixed wait and the
Retry-After override) only choose how long the timer runs and are not
observable in the returned value, so they are not tracked. -/

structure Response where
  statusCode : Nat
  deriving DecidableEq

/-- The error shapes the transport distinguishes: a net.Error whose
Timeout() reports the given flag, any other error value, and the
context-cancellation error returned by ctx.Err(). -/
inductive GoError where
  | net (timedOut : Bool) : GoError
  | other : GoError
  | ctxCanceled : GoError
  deriving DecidableEq

/-- errors.As(err, netErr) and netErr.Timeout() combined. -/
def isTimeoutNetError : GoError → Bool
  | GoError.net t => t
  | _ => false

/-- Embedding of isRetryable.  Go dereferences resp.StatusCode when err is
nil; the transport contract guarantees resp is non-nil exactly when err is
nil, so the (none, none) row is never reached from RoundTrip. -/
def isRetryable (resp : Option Response) (err : Option GoError) :
    Bool × Option GoError :=
  match err with
  | some e => if isTimeoutNetError e then (true, none) else (false, some e)
  | none =>
    match resp with
    | some r =>
      if r.statusCode = 408 ∨ r.statusCode = 429 then (true, none)
      else if r.statusCode = 0 ∨ 500 ≤ r.statusCode then (true, none)
      else (false, none)
    | none => (false, none)

structure RetryTransport where
  maxRetry : Nat
  wait : Nat

/-- Embedding of newRetryTransport (wait of 1 second, as an abstract unit). -/
def newRetryTransport : RetryTransport := { maxRetry := 3, wait := 1 }

/-- The fields of the request RoundTrip inspects: whether it carries a
body, and the GetBody rebuild hook (none = no hook, some false = hook that
fails, some true = hook that succeeds). -/
structure Request where
  hasBody : Bool
  getBody : Option Bool
  deriving DecidableEq

structure Env where
  transport : Nat → Option Response × Option GoError
  cancelledDuringWait : Nat → Bool

/-- The retry loop of retryTransport.RoundTrip.  The pair (attempt,
remaining) keeps remaining = maxRetry - attempt, so remaining = 0 is
exactly the Go guard attempt >= t.maxRetry; the second component of the
result counts the transport calls made. -/
def roundTripLoop (env : Env) (req : Request) :
    Nat → Nat → (Option Response × Option GoError) × Nat
  | attempt, 0 => (env.transport attempt, attempt + 1)
  | attempt, remaining + 1 =>
    let out := env.transport attempt
    let sr := isRetryable out.1 out.2
    match sr.2 with
    | some e => ((none, some e), attempt + 1)
    | none =>
      if sr.1 = false then (out, attempt + 1)
      else if req.hasBody = true ∧ req.getBody = none then (out, attempt + 1)
      else if req.hasBody = true ∧ req.getBody = some false then (out, attempt + 1)
      else if env.cancelledDuringWait attempt = true then
        ((none, some GoError.ctxCanceled), attempt + 1)
      else roundTripLoop env req (attempt + 1) remaining

/-- Embedding of retryTransport.RoundTrip, returning the Go result pair
and the number of attempts performed. -/
def RetryTransport.RoundTrip (t : RetryTransport) (env : Env) (req : Request) :
    (Option Response × Option GoError) × Nat :=
  roundTripLoop env req 0 t.maxRetry

theorem isRetryable_resp_snd (resp : Option Response) :
    (isRetryable resp none).2 = none := by
  unfold isRetryable
  rcases resp with _ | r
  · rfl
  · dsimp only
    split
    · rfl
    · split <;> rfl

theorem roundTripLoop_exhaust (env : Env) (req : Request) (resp : Nat → Response)
    (htr : ∀ i, env.transport i = (some (resp i), none))
    (hretry : ∀ i, (isRetryable (some (resp i)) none).1 = true)
    (hbody : req.hasBody = false ∨ req.getBody = some true) :
    ∀ remaining attempt,
      (∀ i, i < attempt + remaining → env.cancelledDuringWait i = false) →
      roundTripLoop env req attempt remaining =
        ((some (resp (attempt + remaining)), none), attempt + remaining + 1) := by
  intro remaining
  induction remaining with
  | zero =>
    intro attempt _
    simp [roundTripLoop, htr]
  | succ remaining ih =>
    intro attempt hcancel
    have hb1 : ¬(req.hasBody = true ∧ req.getBody = none) := by
      rcases hbody with h | h <;> simp [h]
    have hb2 : ¬(req.hasBody = true ∧ req.getBody = some false) := by
      rcases hbody with h | h <;> simp [h]
    have hc : env.cancelledDuringWait attempt = false :=
      hcancel attempt (by omega)
    have step : roundTripLoop env req attempt (remaining + 1) =
        roundTripLoop env req (attempt + 1) remaining := by
      rw [roundTripLoop]
      rw [htr attempt]
      simp only [isRetryable_resp_snd, hretry attempt, hc]
      simp [hb1, hb2]
    rw [step, ih (attempt + 1) (fun i hi => hcancel i (by omega))]
    have harith : attempt + 1 + remaining = attempt + (remaining + 1) := by omega
    rw [harith]

/-- Claim C3: when every attempt yields a retryable response, RoundTrip
performs exactly maxRetry + 1 attempts and returns the last received
response with a nil error; it never synthesizes an exhausted-retries
error. -/
theorem c3_exhaustion_returns_last_response (t : RetryTransport) (env : Env)
    (req : Request) (resp : Nat → Response)
    (htr : ∀ i, env.transport i = (some (resp i), none))
    (hretry : ∀ i, (isRetryable (some (resp i)) none).1 = true)
    (hbody : req.hasBody = false ∨ req.getBody = some true)
    (hcancel : ∀ i, env.cancelledDuringWait i = false) :
    t.RoundTrip env req = ((some (resp t.maxRetry), none), t.maxRetry + 1) := by
  have h := roundTripLoop_exhaust env req resp htr hretry hbody t.maxRetry 0
    (fun i _ => hcancel i)
  simpa [RetryTransport.RoundTrip] using h

/-- An environment whose server always answers 503 and whose context is
never cancelled. -/
def env503 : Env :=
  { transport := fun _ => (some { statusCode := 503 }, none),
    cancelledDuringWait := fun _ => false }

/-- A bodiless GET request, as the fetcher issues. -/
def reqNoBody : Request := { hasBody := false, getBody := none }

theorem retryable_503 : (isRetryable (some { statusCode := 503 }) none).1 = true := by
  decide

/-- Claim C4: a timeout transport error is retryable; any other transport
error is not retryable and RoundTrip propagates it immediately as a
terminal error with no response; statuses 408, 429, 0 and everything from
500 up are retryable; every other status is not retryable and the
response is returned as-is. -/
theorem c4_outcome_classification :
    (∀ (resp : Option Response) (e : GoError), isTimeoutNetError e = true →
      isRetryable resp (some e) = (true, none)) ∧
    (∀ (resp : Option Response) (e : GoError), isTimeoutNetError e = false →
      isRetryable resp (some e) = (false, some e)) ∧
    (∀ r : Response,
      r.statusCode = 408 ∨ r.statusCode = 429 ∨ r.statusCode = 0 ∨ 500 ≤ r.statusCode →
      isRetryable (some r) none = (true, none)) ∧
    (∀ r : Response,
      ¬(r.statusCode = 408 ∨ r.statusCode = 429 ∨ r.statusCode = 0 ∨ 500 ≤ r.statusCode) →
      isRetryable (some r) none = (false, none)) ∧
    (∀ (t : RetryTransport) (env : Env) (req : Request) (e : GoError),
      0 < t.maxRetry → env.transport 0 = (none, some e) →
      isTimeoutNetError e = false →
      t.RoundTrip env req = ((none, some e), 1)) ∧
    (∀ (t : RetryTransport) (env : Env) (req : Request) (r : Response),
      0 < t.maxRetry → env.transport 0 = (some r, none) →
      ¬(r.statusCode = 408 ∨ r.statusCode = 429 ∨ r.statusCode = 0 ∨ 500 ≤ r.statusCode) →
      t.RoundTrip env req = ((some r, none), 1)) := by
  refine ⟨?_, ?_, ?_, ?_, ?_, ?_⟩
  · intro resp e h
    simp [isRetryable, h]
  · intro resp e h
    simp [isRetryable, h]
  · intro r h
    rcases h with h | h | h | h
    · simp [isRetryable, h]
    · simp [isRetryable, h]
    · simp [isRetryable, h]
    · have h1 : ¬(r.statusCode = 408 ∨ r.statusCode = 429) := by omega
      simp [isRetryable, h1, h]
  · intro r h
    push_neg at h
    simp [isRetryable, h.1, h.2.1, h.2.2.1, h.2.2.2]
  · intro t env req e hpos htr0 hto
    obtain ⟨m, hm⟩ : ∃ m, t.maxRetry = m + 1 := ⟨t.maxRetry - 1, by omega⟩
    simp [RetryTransport.RoundTrip, hm, roundTripLoop, htr0, isRetryable, hto]
  · intro t env req r hpos htr0 h
    push_neg at h
    obtain ⟨m, hm⟩ : ∃ m, t.maxRetry = m + 1 := ⟨t.maxRetry - 1, by omega⟩
    have h5 : ¬ 500 ≤ r.statusCode := by omega
    simp [RetryTransport.RoundTrip, hm, roundTripLoop, htr0, isRetryable,
      h.1, h.2.1, h.2.2.1, h5]

/-- An environment whose first transport call fails with a non-timeout
error. -/
def envOtherErr : Env :=
  { transport := fun _ => (none, some GoError.other),
    cancelledDuringWait := fun _ => false }

/-- An environment whose server always answers 404. -/
def env404 : Env :=
  { transport := fun _ => (some { statusCode := 404 }, none),
    cancelledDuringWait := fun _ => false }

/-- Closed instance of C4 covering each classification row. -/
theorem c4_witness :
    isRetryable none (some (GoError.net true)) = (true, none) ∧
    isRetryable none (some GoError.other) = (false, some GoError.other) ∧
    isRetryable (some { statusCode := 503 }) none = (true, none) ∧
    isRetryable (some { statusCode := 404 }) none = (false, none) ∧
    RetryTransport.RoundTrip { maxRetry := 3, wait := 1 } envOtherErr reqNoBody =
      ((none, some GoError.other), 1) ∧
    RetryTransport.RoundTrip { maxRetry := 3, wait := 1 } env404 reqNoBody =
      ((some { statusCode := 404 }, none), 1) :=
  ⟨c4_outcome_classification.1 none (GoError.net true) rfl,
   c4_outcome_classification.2.1 none GoError.other rfl,
   c4_outcome_classification.2.2.1 { statusCode := 503 } (by decide),
   c4_outcome_classification.2.2.2.1 { statusCode := 404 } (by decide),
   c4_outcome_classification.2.2.2.2.1 { maxRetry := 3, wait := 1 } envOtherErr
     reqNoBody GoError.other (by decide) rfl rfl,
   c4_outcome_classification.2.2.2.2.2 { maxRetry := 3, wait := 1 } env404
     reqNoBody { statusCode := 404 } (by decide) rfl (by decide)⟩

theorem roundTripLoop_cancel (env : Env) (req : Request) (resp : Nat → Response)
    (htr : ∀ i, env.transport i = (some (resp i), none))
    (hretry : ∀ i, (isRetryable (some (resp i)) none).1 = true)
    (hbody : req.hasBody = false ∨ req.getBody = some true) :
    ∀ remaining attempt j, attempt ≤ j → j < attempt + remaining →
      (∀ i, attempt ≤ i → i < j → env.cancelledDuringWait i = false) →
      env.cancelledDuringWait j = true →
      roundTripLoop env req attempt remaining =
        ((none, some GoError.ctxCanceled), j + 1) := by
  intro remaining
  induction remaining with
  | zero =>
    intro attempt j h1 h2 _ _
    omega
  | succ remaining ih =>
    intro attempt j h1 h2 hbefore hj
    have hb1 : ¬(req.hasBody = true ∧ req.getBody = none) := by
      rcases hbody with h | h <;> simp [h]
    have hb2 : ¬(req.hasBody = true ∧ req.getBody = some false) := by
      rcases hbody with h | h <;> simp [h]
    by_cases heq : attempt = j
    · subst heq
      rw [roundTripLoop, htr attempt]
      simp only [isRetryable_resp_snd, hretry attempt, hj]
      simp [hb1, hb2]
    · have hlt : attempt < j := by omega
      have hc : env.cancelledDuringWait attempt = false :=
        hbefore attempt (by omega) hlt
      have step : roundTripLoop env req attempt (remaining + 1) =
          roundTripLoop env req (attempt + 1) remaining := by
        rw [roundTripLoop, htr attempt]
        simp only [isRetryable_resp_snd, hretry attempt, hc]
        simp [hb1, hb2]
      rw [step]
      exact ih (attempt + 1) j (by omega) (by omega)
        (fun i hi1 hi2 => hbefore i (by omega) hi2) hj

/-- Claim C5: if the context is cancelled during the wait after some
attempt (all earlier waits having completed), RoundTrip returns
immediately with a nil response and the context-cancellation error; and
when no wait is cancelled, retrying runs to exhaustion — cancellation
during the wait is the only early exit while every outcome stays
retryable and the body can be rebuilt. -/
theorem c5_cancellation_during_wait (t : RetryTransport) (env : Env)
    (req : Request) (resp : Nat → Response)
    (htr : ∀ i, env.transport i = (some (resp i), none))
    (hretry : ∀ i, (isRetryable (some (resp i)) none).1 = true)
    (hbody : req.hasBody = false ∨ req.getBody = some true) :
    (∀ j, j < t.maxRetry →
      (∀ i, i < j → env.cancelledDuringWait i = false) →
      env.cancelledDuringWait j = true →
      t.RoundTrip env req = ((none, some GoError.ctxCanceled), j + 1)) ∧
    ((∀ i, i < t.maxRetry → env.cancelledDuringWait i = false) →
      (t.RoundTrip env req).2 = t.maxRetry + 1) := by
  constructor
  · intro j hj hbefore hcj
    exact roundTripLoop_cancel env req resp htr hretry hbody t.maxRetry 0 j
      (by omega) (by omega) (fun i _ hi => hbefore i hi) hcj
  · intro hnone
    have h := roundTripLoop_exhaust env req resp htr hretry hbody t.maxRetry 0
      (fun i hi => hnone i (by omega))
    simp [RetryTransport.RoundTrip, h]

/-- An always-503 environment whose context is cancelled during the first
wait. -/
def envCancelFirstWait : Env :=
  { transport := fun _ => (some { statusCode := 503 }, none),
    cancelledDuringWait := fun i => i == 0 }

/-- Closed instance of C5: cancellation during the first wait makes
RoundTrip return the cancellation error after a single attempt, and with
no cancellation the always-503 run takes all maxRetry + 1 attempts. -/
theorem c5_witness :
    RetryTransport.RoundTrip { maxRetry := 5, wait := 10 } envCancelFirstWait
      reqNoBody = ((none, some GoError.ctxCanceled), 1) ∧
    (RetryTransport.RoundTrip { maxRetry := 5, wait := 10 } env503 reqNoBody).2 = 6 :=
  ⟨(c5_cancellation_during_wait { maxRetry := 5, wait := 10 } envCancelFirstWait
      reqNoBody (fun _ => { statusCode := 503 }) (fun _ => rfl)
      (fun _ => retryable_503) (Or.inl rfl)).1 0 (by decide)
      (fun i hi => absurd hi (by omega)) (by decide),
   (c5_cancellation_during_wait { maxRetry := 5, wait := 10 } env503
      reqNoBody (fun _ => { statusCode := 503 }) (fun _ => rfl)
      (fun _ => retryable_503) (Or.inl rfl)).2 (fun i _ => rfl)⟩

/-- Closed instance of C3: always-503 with maxRetry = 2 gives 3 attempts
and a final 503 with no error. -/
theorem c3_witness :
    RetryTransport.RoundTrip { maxRetry := 2, wait := 1 } env503 reqNoBody =
      ((some { statusCode := 503 }, none), 3) :=
  c3_exhaustion_returns_last_response { maxRetry := 2, wait := 1 } env503 reqNoBody
    (fun _ => { statusCode := 503 }) (fun _ => rfl) (fun _ => retryable_503)
    (Or.inl rfl) (fun _ => rfl)

/-! ## TTL cache

Modelled from the spec: the implementation of `fetcher.Cache` (`NewCache`,
`Cache.Get`, `Cache.Set`) is not among the provided source files — only its
callers and tests are — so sections 3 and 4.5 of the spec are the
authority here.  An entry is payload bytes, a source identifier, and the
insertion timestamp; `Get` hits only while now − inserted-at is strictly
below the TTL; `Set` unconditionally overwrites with the current
timestamp; expiry is lazy (a `Get` never removes anything — here `Get`
does not even produce a new cache).  Timestamps are `Nat` instants; the
single-lock concurrency of the Go code is outside this sequential
model. -/

structure CacheEntry where
  payload : List UInt8
  source : String
  insertedAt : Nat
  deriving DecidableEq

structure Cache where
  ttl : Nat
  entries : String → Option CacheEntry

/-- Modelled from the spec: an empty cache with the given TTL. -/
def NewCache (ttl : Nat) : Cache := { ttl := ttl, entries := fun _ => none }

/-- Modelled from the spec: get returns (bytes, source identifier, found);
found is true only if an entry exists and its age is strictly below the
TTL. -/
def Cache.Get (c : Cache) (now : Nat) (key : String) : List UInt8 × String × Bool :=
  match c.entries key with
  | none => ([], "", false)
  | some e => if now - e.insertedAt < c.ttl then (e.payload, e.source, true)
              else ([], "", false)

/-- Modelled from the spec: set unconditionally stores/overwrites the
entry for the key with the current timestamp. -/
def Cache.Set (c : Cache) (now : Nat) (key : String) (data : List UInt8)
    (src : String) : Cache :=
  { ttl := c.ttl,
    entries := fun k =>
      if k = key then some { payload := data, source := src, insertedAt := now }
      else c.entries k }

/-- Claim C8: Get reports found exactly when an entry exists whose age is
strictly below the TTL; an expired entry reports found = false while
remaining stored (Get consumes the cache read-only — no removal ever
happens on a read — and only a later Set for the same key replaces it);
Set unconditionally overwrites the keyed entry with the current timestamp
and leaves every other key alone. -/
theorem c8_ttl_cache_get_set (c : Cache) (now : Nat) (key : String) :
    ((c.Get now key).2.2 = true ↔
      ∃ e, c.entries key = some e ∧ now - e.insertedAt < c.ttl) ∧
    (∀ e, c.entries key = some e → c.ttl ≤ now - e.insertedAt →
      (c.Get now key).2.2 = false ∧ c.entries key = some e) ∧
    (∀ data src, (c.Set now key data src).entries key =
      some { payload := data, source := src, insertedAt := now }) ∧
    (∀ data src k, k ≠ key →
      (c.Set now key data src).entries k = c.entries k) := by
  refine ⟨?_, ?_, ?_, ?_⟩
  · rcases he : c.entries key with _ | e
    · simp [Cache.Get, he]
    · by_cases hage : now - e.insertedAt < c.ttl
      · simp [Cache.Get, he, hage]
      · simp [Cache.Get, he, hage]
  · intro e he hexp
    have hage : ¬(now - e.insertedAt < c.ttl) := by omega
    refine ⟨?_, he⟩
    simp [Cache.Get, he, hage]
  · intro data src
    simp [Cache.Set]
  · intro data src k hk
    simp [Cache.Set, hk]

/-- Closed instance of C8: a fresh entry hits within the TTL, is reported
absent once the TTL has elapsed, yet is still stored. -/
theorem c8_witness :
    (((NewCache 10).Set 0 "k" [1] "s").Get 5 "k").2.2 = true ∧
    (((NewCache 10).Set 0 "k" [1] "s").Get 10 "k").2.2 = false ∧
    ((NewCache 10).Set 0 "k" [1] "s").entries "k" =
      some { payload := [1], source := "s", insertedAt := 0 } :=
  ⟨(c8_ttl_cache_get_set ((NewCache 10).Set 0 "k" [1] "s") 5 "k").1.mpr
      ⟨{ payload := [1], source := "s", insertedAt := 0 }, by decide, by decide⟩,
   ((c8_ttl_cache_get_set ((NewCache 10).Set 0 "k" [1] "s") 10 "k").2.1
      { payload := [1], source := "s", insertedAt := 0 } (by decide) (by decide)).1,
   (c8_ttl_cache_get_set (NewCache 10) 0 "k").2.2.1 [1] "s"⟩

/-! ## Cached fetcher (`CachedFetcher.Fetch`)

The wrapped `Fetcher.Fetch(ctx)` call is the environment: its outcome on
this call is the `wrapped` argument (error, or data plus source
identifier).  The result carries the Go return triple (as an `Except`),
the cache state after the call, and whether the wrapped fetcher was
invoked. -/

def CachedFetcher.Fetch (c : Cache) (source : String)
    (wrapped : Except String (List UInt8 × String)) (now : Nat)
    (refresh : Bool) :
    Except String (List UInt8 × String) × Cache × Bool :=
  if refresh = false ∧ (c.Get now source).2.2 = true then
    (Except.ok ((c.Get now source).1, (c.Get now source).2.1), c, false)
  else
    match wrapped with
    | Except.error e => (Except.error e, c, true)
    | Except.ok (data, srcID) =>
      (Except.ok (data, srcID), c.Set now source data srcID, true)

/-- Claim C6: with refresh = false and a cache hit for the configured
source key, the cached payload and source identifier are returned, the
cache is untouched, and the wrapped fetcher is never invoked; with
refresh = true the wrapped fetcher is always invoked, whatever the cache
holds. -/
theorem c6_cached_fetch_cache_first (c : Cache) (source : String)
    (wrapped : Except String (List UInt8 × String)) (now : Nat) :
    ((c.Get now source).2.2 = true →
      CachedFetcher.Fetch c source wrapped now false =
        (Except.ok ((c.Get now source).1, (c.Get now source).2.1), c, false)) ∧
    (CachedFetcher.Fetch c source wrapped now true).2.2 = true := by
  constructor
  · intro hfound
    simp [CachedFetcher.Fetch, hfound]
  · simp only [CachedFetcher.Fetch]
    rw [if_neg (by simp)]
    rcases wrapped with e | ⟨data, srcID⟩ <;> rfl

/-- Claim C7: on the fetch path (cache miss or forced refresh), an error
from the wrapped fetcher is propagated unchanged and the cache is exactly
what it was before the call; only on a successful underlying fetch is the
cache Set under the configured key before the fresh result is returned. -/
theorem c7_cached_fetch_error_no_mutation (c : Cache) (source : String)
    (wrapped : Except String (List UInt8 × String)) (now : Nat)
    (refresh : Bool)
    (hpath : refresh = true ∨ (c.Get now source).2.2 = false) :
    (∀ e, wrapped = Except.error e →
      CachedFetcher.Fetch c source wrapped now refresh =
        (Except.error e, c, true)) ∧
    (∀ data srcID, wrapped = Except.ok (data, srcID) →
      CachedFetcher.Fetch c source wrapped now refresh =
        (Except.ok (data, srcID), c.Set now source data srcID, true)) := by
  have hcond : ¬(refresh = false ∧ (c.Get now source).2.2 = true) := by
    rcases hpath with h | h <;> simp [h]
  constructor
  · rintro e rfl
    simp [CachedFetcher.Fetch, hcond]
  · rintro data srcID rfl
    simp [CachedFetcher.Fetch, hcond]

/-- Closed instance of C6: a hit short-circuits the fetch; a forced
refresh always invokes the wrapped fetcher. -/
theorem c6_witness :
    CachedFetcher.Fetch ((NewCache 10).Set 0 "k" [1] "s") "k"
        (Except.error "boom") 5 false =
      (Except.ok ([1], "s"), (NewCache 10).Set 0 "k" [1] "s", false) ∧
    (CachedFetcher.Fetch ((NewCache 10).Set 0 "k" [1] "s") "k"
        (Except.ok ([2], "t")) 5 true).2.2 = true :=
  ⟨(c6_cached_fetch_cache_first ((NewCache 10).Set 0 "k" [1] "s") "k"
      (Except.error "boom") 5).1 (by decide),
   (c6_cached_fetch_cache_first ((NewCache 10).Set 0 "k" [1] "s") "k"
      (Except.ok ([2], "t")) 5).2⟩

/-- Closed instance of C7: on a miss, an underlying error leaves the
cache untouched, and an underlying success writes through. -/
theorem c7_witness :
    CachedFetcher.Fetch (NewCache 10) "k" (Except.error "boom") 0 false =
      (Except.error "boom", NewCache 10, true) ∧
    CachedFetcher.Fetch (NewCache 10) "k" (Except.ok ([2], "t")) 0 false =
      (Except.ok ([2], "t"), (NewCache 10).Set 0 "k" [2] "t", true) :=
  ⟨(c7_cached_fetch_error_no_mutation (NewCache 10) "k" (Except.error "boom") 0
      false (Or.inr (by decide))).1 "boom" rfl,
   (c7_cached_fetch_error_no_mutation (NewCache 10) "k" (Except.ok ([2], "t")) 0
      false (Or.inr (by decide))).2 [2] "t" rfl⟩

/-! ## Bounded HTTP fetcher (`HTTPFetcher`, `limitReader`)

The network part of `HTTPFetcher.Fetch` (building the request and running
it through the shared retrying client) is again environment: what the
claims C9 and C10 decide is how the fetch URL is fixed at construction
time and how the response body read is capped, so the client's outcome
for the single GET is passed in as a status code plus the full body the
server would send, and reading through io.ReadAll of io.LimitReader
becomes List.take. -/

/-- Embedding of defaultMaxResponseBytes (4 MiB). -/
def defaultMaxResponseBytes : Int := 4 * 1024 * 1024

structure HTTPFetcher where
  fetchURL : String
  MaxResponseBytes : Int
  deriving DecidableEq

/-- Embedding of NewHTTPFetcher: build the URL through the trusted
builder; on success the fetch URL is fixed and MaxResponseBytes is left
at its zero value. -/
def NewHTTPFetcher (lib : URLLib) (builder : URLBuilder) (version : String) :
    Except String HTTPFetcher :=
  match URLBuilder.Build lib builder version with
  | Except.error e => Except.error ("building fetch URL: " ++ e)
  | Except.ok u => Except.ok { fetchURL := u, MaxResponseBytes := 0 }

/-- Embedding of HTTPFetcher.URL. -/
def HTTPFetcher.URL (f : HTTPFetcher) : String := f.fetchURL

/-- Embedding of limitReader: a reader that stops after n bytes, falling
back to defaultMaxResponseBytes when n is zero or negative.  Reading
everything from it is taking that many bytes of the underlying body. -/
def limitReaderCap (n : Int) : Int :=
  if n ≤ 0 then defaultMaxResponseBytes else n

def limitRead (body : List UInt8) (n : Int) : List UInt8 :=
  body.take (limitReaderCap n).toNat

/-- Embedding of HTTPFetcher.Fetch given the client outcome for the GET:
a transport error, or a status code with the body the server would
deliver; a non-200 status is a terminal error, otherwise the body is read
through the limit reader and returned with the fetch URL. -/
def HTTPFetcher.Fetch (f : HTTPFetcher)
    (clientResult : Except String (Nat × List UInt8)) :
    Except String (List UInt8 × String) :=
  match clientResult with
  | Except.error e => Except.error ("executing request: " ++ e)
  | Except.ok (status, body) =>
    if status ≠ 200 then Except.error "response status code not OK"
    else Except.ok (limitRead body f.MaxResponseBytes, f.fetchURL)

theorem limitRead_length_le (body : List UInt8) (n : Int) :
    ((limitRead body n).length : Int) ≤ limitReaderCap n := by
  have hnn : 0 ≤ limitReaderCap n := by
    unfold limitReaderCap defaultMaxResponseBytes
    split <;> omega
  have htake : (limitRead body n).length ≤ (limitReaderCap n).toNat := by
    unfold limitRead
    simp [List.length_take]
  calc ((limitRead body n).length : Int) ≤ ((limitReaderCap n).toNat : Int) := by
        exact_mod_cast htake
    _ = limitReaderCap n := Int.toNat_of_nonneg hnn

/-- Claim C10: a successful Fetch returns at most 4 MiB of body data when
MaxResponseBytes is zero or negative (the zero value falls back to the
default cap, it does not mean unlimited or empty), and at most n bytes
when MaxResponseBytes = n is positive. -/
theorem c10_response_size_cap (f : HTTPFetcher)
    (clientResult : Except String (Nat × List UInt8))
    (data : List UInt8) (src : String)
    (h : f.Fetch clientResult = Except.ok (data, src)) :
    (f.MaxResponseBytes ≤ 0 → (data.length : Int) ≤ 4 * 1024 * 1024) ∧
    (0 < f.MaxResponseBytes → (data.length : Int) ≤ f.MaxResponseBytes) := by
  rcases clientResult with e | ⟨status, body⟩
  · simp [HTTPFetcher.Fetch] at h
  · by_cases hs : status = 200
    · subst hs
      simp [HTTPFetcher.Fetch] at h
      obtain ⟨hdata, _⟩ := h
      subst hdata
      have hle := limitRead_length_le body f.MaxResponseBytes
      constructor
      · intro hm
        rw [show limitReaderCap f.MaxResponseBytes = defaultMaxResponseBytes by
          simp [limitReaderCap, hm]] at hle
        simpa [defaultMaxResponseBytes] using hle
      · intro hm
        rwa [show limitReaderCap f.MaxResponseBytes = f.MaxResponseBytes by
          simp [limitReaderCap]; omega] at hle
    · simp [HTTPFetcher.Fetch, hs] at h

/-- Closed instance of C10 at the zero value of the override. -/
theorem c10_witness :
    ((([1, 2, 3] : List UInt8).length : Int) ≤ 4 * 1024 * 1024) ∧
    (HTTPFetcher.Fetch { fetchURL := "u", MaxResponseBytes := 0 }
      (Except.ok (200, [1, 2, 3])) = Except.ok ([1, 2, 3], "u")) := by
  have h : HTTPFetcher.Fetch { fetchURL := "u", MaxResponseBytes := 0 }
      (Except.ok (200, [1, 2, 3])) = Except.ok ([1, 2, 3], "u") := rfl
  exact ⟨(c10_response_size_cap { fetchURL := "u", MaxResponseBytes := 0 }
    (Except.ok (200, [1, 2, 3])) [1, 2, 3] "u" h).1 (by decide), h⟩

/-! ## Tool modes (internal/tool/mode.go)

getLexicon and getSchemaDocs first replace an empty input version by a
per-tool default, then hand the result to NewHTTPFetcher (which runs
ValidateVersion inside URLBuilder.Build).  Only that version-defaulting
and fetcher construction is modelled; the MCP plumbing around it carries
the fetcher's result through unchanged. -/

def defaultSchemaVersion : String := "latest"

def defaultLexiconVersion : String := "v0.19.1"

/-- The fetcher-construction part of AdvisoryMode.getLexicon. -/
def getLexiconFetcher (lib : URLLib) (lexiconURLBuilder : URLBuilder)
    (inputVersion : String) : Except String HTTPFetcher :=
  NewHTTPFetcher lib lexiconURLBuilder
    (if inputVersion = "" then defaultLexiconVersion else inputVersion)

/-- The fetcher-construction part of AdvisoryMode.getSchemaDocs. -/
def getSchemaDocsFetcher (lib : URLLib) (schemaDocsURLBuilder : URLBuilder)
    (inputVersion : String) : Except String HTTPFetcher :=
  NewHTTPFetcher lib schemaDocsURLBuilder
    (if inputVersion = "" then defaultSchemaVersion else inputVersion)

/-- Claim C9: an empty input version is never rejected at the tool
interface — getLexicon silently builds with v0.19.1 and getSchemaDocs
with latest, both of which pass validation, and a non-empty version is
passed through untouched. -/
theorem c9_empty_version_defaults (lib : URLLib) (lexB schemaB : URLBuilder) :
    getLexiconFetcher lib lexB "" = NewHTTPFetcher lib lexB "v0.19.1" ∧
    getSchemaDocsFetcher lib schemaB "" = NewHTTPFetcher lib schemaB "latest" ∧
    ValidateVersion defaultLexiconVersion = none ∧
    ValidateVersion defaultSchemaVersion = none ∧
    (∀ v : String, v ≠ "" →
      getLexiconFetcher lib lexB v = NewHTTPFetcher lib lexB v ∧
      getSchemaDocsFetcher lib schemaB v = NewHTTPFetcher lib schemaB v) := by
  refine ⟨rfl, rfl, by decide, by decide, ?_⟩
  intro v hv
  constructor <;> simp [getLexiconFetcher, getSchemaDocsFetcher, hv]

/-- Closed instance of C9 at the concrete builders configured by
NewAdvisoryMode. -/
theorem c9_witness :
    getLexiconFetcher tLib tBuilder "" = NewHTTPFetcher tLib tBuilder "v0.19.1" ∧
    getLexiconFetcher tLib tBuilder "v1.2.3" = NewHTTPFetcher tLib tBuilder "v1.2.3" :=
  ⟨(c9_empty_version_defaults tLib tBuilder tBuilder).1,
   ((c9_empty_version_defaults tLib tBuilder tBuilder).2.2.2.2 "v1.2.3"
      (by decide)).1⟩

end GemaraMCP
